import Mathlib

/-!
Verification of the gopi HTTP file server (`main.go`) against its
natural-language specification.

The development shallowly embeds the four route handlers of `main.go`
(browse GET, upload POST, delete DELETE, health probes) over an explicit
filesystem model.  Paths are strings; `cleanPath`, `joinPath` and
`absPath` model Go's `path/filepath.Clean`, `filepath.Join` and
`filepath.Abs` on Unix (purely lexical, as the spec assumes).  The
filesystem is an association list from cleaned absolute paths to
entries; OS calls (`os.Stat`, `os.Mkdir`, `os.OpenFile` with
`O_CREATE|O_EXCL`, `os.Remove`, `os.RemoveAll`, `os.ReadDir`) are
modelled over it.  Effects the environment can inject (a failing
`io.Copy`, a short write, a failing part open, a failing remove) are
oracles carried by the request data.
-/

set_option autoImplicit false

namespace Gopi

/-- Entry stored in the filesystem: a regular file with its byte content
and permission bits, or a directory. -/
inductive FsEntry where
  | file (content : List Nat) (mode : Nat)
  | dir
deriving DecidableEq, Repr

/-- The filesystem: an association list from cleaned absolute path to
entry.  Lookup takes the first match. -/
abbrev FS := List (String × FsEntry)

/-- First entry with the given key, if any (models a path lookup). -/
def lookupFS : FS → String → Option FsEntry
  | [], _ => none
  | (q, e) :: rest, p => if q = p then some e else lookupFS rest p

/-- Does the path string begin with a slash (`filepath.IsAbs` on Unix)? -/
def isAbsPath (p : String) : Bool :=
  match p.data with
  | '/' :: _ => true
  | _ => false

/-- Split a character list on the slash separator. -/
def splitAux (cur : List Char) : List Char → List String
  | [] => [String.mk cur.reverse]
  | c :: rest =>
    if c = '/' then String.mk cur.reverse :: splitAux [] rest
    else splitAux (c :: cur) rest

/-- Split a path into its slash-separated segments (like
`strings.Split(p, "/")`: the empty string yields one empty segment). -/
def splitSegs (p : String) : List String :=
  splitAux [] p.data

/-- Join segments with slashes (like `strings.Join(segs, "/")`). -/
def joinSegs : List String → String
  | [] => ""
  | [s] => s
  | s :: rest => s ++ "/" ++ joinSegs rest

/-- Core of `filepath.Clean`: process segments left to right keeping a
reversed output stack; empty and `.` segments vanish, `..` pops a
non-`..` segment, is dropped at the root of a rooted path, and is kept
otherwise. -/
def cleanSegsAux (rooted : Bool) (out : List String) : List String → List String
  | [] => out.reverse
  | c :: rest =>
    if c = "" ∨ c = "." then cleanSegsAux rooted out rest
    else if c = ".." then
      match out with
      | [] =>
        if rooted then cleanSegsAux rooted [] rest
        else cleanSegsAux rooted [".."] rest
      | o :: os =>
        if o = ".." then cleanSegsAux rooted (".." :: o :: os) rest
        else cleanSegsAux rooted os rest
    else cleanSegsAux rooted (c :: out) rest

/-- Go's `filepath.Clean` on Unix: purely lexical normalisation. -/
def cleanPath (p : String) : String :=
  let rooted := isAbsPath p
  let body := joinSegs (cleanSegsAux rooted [] (splitSegs p))
  if rooted = true then (if body = "" then "/" else "/" ++ body)
  else (if body = "" then "." else body)

/-- Go's `filepath.Join` on Unix: drop empty elements, join the rest
with slashes, and `Clean` the result; all-empty input yields the empty
string.  (Go joins from the first non-empty element onward and lets
`Clean` delete the empty segments; dropping them before joining gives
the same result.) -/
def joinPath (elems : List String) : String :=
  match elems.filter (fun e => decide (e ≠ "")) with
  | [] => ""
  | ne => cleanPath (joinSegs ne)

/-- Go's `filepath.Abs` relative to a working directory `cwd`: an
absolute path is cleaned, a relative one is joined onto `cwd`. -/
def absPath (cwd p : String) : String :=
  if isAbsPath p = true then cleanPath p else joinPath [cwd, p]

/-- Lexical parent of a path (the directory that would contain it). -/
def parentDir (p : String) : String :=
  joinPath [p, ".."]

/-- Does the character list `q` begin with the character list `a`? -/
def charsBegin : List Char → List Char → Bool
  | [], _ => true
  | _ :: _, [] => false
  | a :: as, b :: bs => if a = b then charsBegin as bs else false

/-- `q` lies strictly below directory `a`, both given as cleaned
absolute paths: `q` differs from `a` and extends it as a directory —
the extension test uses `a ++ "/"` for an ordinary directory and `a`
itself when `a` is the root `"/"`, which already ends in the
separator. -/
def strictlyUnder (a q : String) : Bool :=
  (if a = "/" then charsBegin a.data q.data else charsBegin (a ++ "/").data q.data)
    && decide (q ≠ a)

/-- `p` lies in the subtree rooted at `root`: it equals `root` or lies
strictly below it. -/
def withinSubtree (root p : String) : Bool :=
  decide (p = root) || strictlyUnder root p

/-- Number of filesystem entries stored at the given path. -/
def countKey (fs : List (String × FsEntry)) (a : String) : Nat :=
  (fs.filter (fun e => decide (e.1 = a))).length

/-- Remove every entry whose key equals `a` (models `os.Remove` of a
single filesystem object). -/
def removeKey (fs : FS) (a : String) : FS :=
  fs.filter (fun e => decide (e.1 ≠ a))

/-- `os.Stat` resolved against the working directory: look the cleaned
absolute form of `p` up in the filesystem. -/
def osStat (cwd : String) (fs : FS) (p : String) : Option FsEntry :=
  lookupFS fs (absPath cwd p)

/-- Result of `os.Mkdir`: success with the new filesystem, failure
because the path already exists (`os.IsExist`), or any other failure
(missing parent). -/
inductive MkdirResult where
  | ok (fs : FS)
  | alreadyExists
  | failed
deriving Repr

/-- `os.Mkdir(p, perm)`: fails with an existence error if anything is
already at `p`, fails otherwise if the parent is not an existing
directory, and else records a new directory. -/
def osMkdir (cwd : String) (fs : FS) (p : String) : MkdirResult :=
  if (lookupFS fs (absPath cwd p)).isSome = true then .alreadyExists
  else
    match lookupFS fs (parentDir (absPath cwd p)) with
    | some FsEntry.dir => .ok ((absPath cwd p, FsEntry.dir) :: fs)
    | _ => .failed

/-- `os.OpenFile(p, O_WRONLY|O_CREATE|O_EXCL, perm)`: fails if anything
already exists at `p` or the parent directory is missing; otherwise
creates an empty file with the given permission bits. -/
def osCreateExcl (cwd : String) (fs : FS) (p : String) (perm : Nat) : Option FS :=
  if (lookupFS fs (absPath cwd p)).isSome = true then none
  else
    match lookupFS fs (parentDir (absPath cwd p)) with
    | some FsEntry.dir => some ((absPath cwd p, FsEntry.file [] perm) :: fs)
    | _ => none

/-- Replace the content of the file stored at absolute path `a`
(models the bytes written by `io.Copy` into the opened handle). -/
def writeContent (fs : FS) (a : String) (bytes : List Nat) : FS :=
  fs.map (fun e =>
    if e.1 = a then
      match e.2 with
      | FsEntry.file _ m => (a, FsEntry.file bytes m)
      | FsEntry.dir => e
    else e)

/-- `os.Remove(p)`: removes a file, or an empty directory; fails when
nothing is at `p` or the directory is non-empty. -/
def osRemove (cwd : String) (fs : FS) (p : String) : Option FS :=
  match lookupFS fs (absPath cwd p) with
  | some (FsEntry.file _ _) => some (removeKey fs (absPath cwd p))
  | some FsEntry.dir =>
    if fs.any (fun e => strictlyUnder (absPath cwd p) e.1) then none
    else some (removeKey fs (absPath cwd p))
  | none => none

/-- Key matches the removal of path `a` by `os.RemoveAll`: the path
itself or anything strictly below it. -/
def underOrEq (a q : String) : Bool :=
  decide (q = a) || strictlyUnder a q

/-- `os.RemoveAll(p)`: removes `p` and every descendant; succeeds (and
does nothing) when `p` is absent. -/
def osRemoveAll (cwd : String) (fs : FS) (p : String) : FS :=
  fs.filter (fun e => !underOrEq (absPath cwd p) e.1)

/-- `os.ReadDir(p)`: the immediate children of the directory at `p`,
failing when `p` is not an existing directory. -/
def osReadDir (cwd : String) (fs : FS) (p : String) : Option (List String) :=
  match lookupFS fs (absPath cwd p) with
  | some FsEntry.dir =>
    some ((fs.filter (fun e =>
      decide (parentDir e.1 = absPath cwd p) && decide (e.1 ≠ absPath cwd p))).map (fun e => e.1))
  | _ => none

/-- HTTP response: status code and body text. -/
structure Response where
  status : Nat
  body : String
deriving DecidableEq, Repr

/-- Handler of `GET /readyz`: always 200 "ok". -/
def readyzHandler : Response :=
  ⟨200, "ok"⟩

/-- Handler of `GET /livez`: tries `os.ReadDir` on the root directory;
500 "Cannot read directory" on failure, else 200 "ok". -/
def livezHandler (cwd rootDir : String) (fs : FS) : Response :=
  match osReadDir cwd fs rootDir with
  | none => ⟨500, "Cannot read directory"⟩
  | some _ => ⟨200, "ok"⟩

/-- Outcome of the browse handler (`GET /`): 404, an HTML directory
listing of the resolved path, or the file served by `http.ServeFile`. -/
inductive GetOutcome where
  | notFound
  | listing (path : String) (entries : List String)
  | serveFile (content : List Nat)
deriving DecidableEq, Repr

/-- Handler of `GET /`: join the root directory with the URL path; 404
if nothing is there (`os.Open` fails), an entry listing for a
directory, the file content otherwise. -/
def getHandler (cwd rootDir urlPath : String) (fs : FS) : GetOutcome :=
  match lookupFS fs (absPath cwd (joinPath [rootDir, urlPath])) with
  | none => .notFound
  | some FsEntry.dir =>
    .listing (joinPath [rootDir, urlPath])
      ((osReadDir cwd fs (joinPath [rootDir, urlPath])).getD [])
  | some (FsEntry.file c _) => .serveFile c

/-- One uploaded file part of a multipart form: the declared filename
and size and the part's bytes, together with the oracles for the
environment-dependent outcomes of `file.Open()` and `io.Copy` (whether
the open fails, whether the copy errors, and how many bytes the copy
reports written — `part.content.take part.written` bytes reach the
destination). -/
structure FilePart where
  filename : String
  content : List Nat
  size : Nat
  openFails : Bool
  copyErr : Bool
  written : Nat
deriving DecidableEq, Repr

/-- Result of the upload handler: final filesystem, response, and the
`(field key, filename)` parts in the order they were handled. -/
structure UploadOutcome where
  fs : FS
  resp : Response
  processed : List (String × String)
deriving DecidableEq, Repr

/-- First value list bound to key `k` in the form's value map. -/
def lookupVals : List (String × List String) → String → Option (List String)
  | [], _ => none
  | (k2, vs) :: rest, k => if k2 = k then some vs else lookupVals rest k

/-- The nested `range` over `r.MultipartForm.File` flattened: fields in
the order the map's `range` yields them (which Go leaves unspecified),
and within a field the parts in list order. -/
def flattenFiles (files : List (String × List FilePart)) : List (String × FilePart) :=
  files.flatMap (fun kf => kf.2.map (fun p => (kf.1, p)))

/-- Body of the upload handler's per-part loop (`main.go` lines
117-167).  For each part in order: a failing open is logged and
skipped; an `os.Stat` hit at the destination aborts with 409 "File
already exists"; a failing exclusive create aborts with 500 "Unable to
create file"; after the copy, an error or a size mismatch removes the
destination and aborts with 500 "Error copying file"; when every part
succeeds the handler ends with 200 "Form data received and printed". -/
def processParts (cwd rootDir dirName : String) :
    FS → List (String × String) → List (String × FilePart) → UploadOutcome
  | fs, trace, [] => ⟨fs, ⟨200, "Form data received and printed"⟩, trace.reverse⟩
  | fs, trace, (key, part) :: rest =>
    if part.openFails = true then
      processParts cwd rootDir dirName fs ((key, part.filename) :: trace) rest
    else if (lookupFS fs (absPath cwd (joinPath [rootDir, dirName, part.filename]))).isSome = true then
      ⟨fs, ⟨409, "File already exists"⟩, ((key, part.filename) :: trace).reverse⟩
    else
      match osCreateExcl cwd fs (joinPath [rootDir, dirName, part.filename]) 0o444 with
      | none => ⟨fs, ⟨500, "Unable to create file"⟩, ((key, part.filename) :: trace).reverse⟩
      | some fs1 =>
        let fs2 := writeContent fs1 (absPath cwd (joinPath [rootDir, dirName, part.filename]))
          (part.content.take part.written)
        if part.copyErr = true ∨ part.written ≠ part.size then
          ⟨(osRemove cwd fs2 (joinPath [rootDir, dirName, part.filename])).getD fs2,
            ⟨500, "Error copying file"⟩, ((key, part.filename) :: trace).reverse⟩
        else
          processParts cwd rootDir dirName fs2 ((key, part.filename) :: trace) rest

/-- Handler of `POST /` (`main.go` lines 93-171): parse the form (400
on failure); read the first value of field `name` (400 when absent or
empty-listed); `os.Mkdir` the subdirectory, treating an existence error
as success and any other error as 500 "Unable to create directory";
then process every uploaded part. -/
def uploadHandler (cwd rootDir : String) (parseOk : Bool)
    (values : List (String × List String)) (files : List (String × List FilePart))
    (fs : FS) : UploadOutcome :=
  if parseOk = false then ⟨fs, ⟨400, "Unable to parse form"⟩, []⟩
  else
    match lookupVals values "name" with
    | some (dirName :: _) =>
      match osMkdir cwd fs (joinPath [rootDir, dirName]) with
      | .ok fs1 => processParts cwd rootDir dirName fs1 [] (flattenFiles files)
      | .alreadyExists => processParts cwd rootDir dirName fs [] (flattenFiles files)
      | .failed => ⟨fs, ⟨500, "Unable to create directory"⟩, []⟩
    | _ => ⟨fs, ⟨400, "Directory name not provided"⟩, []⟩

/-- First guard of the delete handler (`main.go` line 176): the raw URL
path is exactly the root or a wildcard. -/
def rootWildcard (s : String) : Bool :=
  decide (s = "/") || decide (s = "") || decide (s = "*") || decide (s = "/*")

/-- Second guard of the delete handler (`main.go` line 188), written as
in the source with a length test in place of the equality with the
empty string. -/
def invalidDeletePath (s : String) : Bool :=
  decide (s.length = 0) || decide (s = "/") || decide (s = "*") || decide (s = "/*")

/-- Handler of `DELETE /` (`main.go` lines 173-211).  `removeOk` is the
oracle for whether the operating system lets the removal call succeed;
on a failed removal nothing is modelled as removed. -/
def deleteHandler (cwd rootDir relPath : String) (fs : FS) (removeOk : Bool) :
    FS × Response :=
  if rootWildcard relPath = true then
    (fs, ⟨403, "Refusing to delete root or wildcard path"⟩)
  else if absPath cwd rootDir = absPath cwd (joinPath [rootDir, relPath]) then
    (fs, ⟨403, "Refusing to delete root directory"⟩)
  else if invalidDeletePath relPath = true then
    (fs, ⟨403, "Invalid delete path"⟩)
  else
    match lookupFS fs (absPath cwd (joinPath [rootDir, relPath])) with
    | none => (fs, ⟨404, "File or directory not found"⟩)
    | some FsEntry.dir =>
      if removeOk = true then
        (osRemoveAll cwd fs (joinPath [rootDir, relPath]), ⟨200, "Deleted"⟩)
      else (fs, ⟨500, "Unable to delete"⟩)
    | some (FsEntry.file _ _) =>
      if removeOk = true then
        match osRemove cwd fs (joinPath [rootDir, relPath]) with
        | some fs2 => (fs2, ⟨200, "Deleted"⟩)
        | none => (fs, ⟨500, "Unable to delete"⟩)
      else (fs, ⟨500, "Unable to delete"⟩)

end Gopi

namespace Gopi

/-- Looking a key up after a filter that drops every entry with that key
finds nothing. -/
theorem lookupFS_filter_of_false (fs : FS) (f : String × FsEntry → Bool) (q : String)
    (h : ∀ en : FsEntry, f (q, en) = false) :
    lookupFS (fs.filter f) q = none := by
  induction fs with
  | nil => rfl
  | cons e rest ih =>
    obtain ⟨p, en⟩ := e
    by_cases hf : f (p, en) = true
    · have hq : p ≠ q := by
        intro hpq
        subst hpq
        rw [h en] at hf
        exact Bool.false_ne_true hf
      simpa [List.filter_cons, hf, lookupFS, hq] using ih
    · simp only [List.filter_cons, hf]
      simpa using ih

/-- Looking a key up after a filter that keeps every entry with that key
finds the same result as before the filter. -/
theorem lookupFS_filter_of_true (fs : FS) (f : String × FsEntry → Bool) (q : String)
    (h : ∀ en : FsEntry, f (q, en) = true) :
    lookupFS (fs.filter f) q = lookupFS fs q := by
  induction fs with
  | nil => rfl
  | cons e rest ih =>
    obtain ⟨p, en⟩ := e
    by_cases hq : p = q
    · subst hq
      simp [List.filter_cons, h en, lookupFS]
    · by_cases hf : f (p, en) = true
      · simp [List.filter_cons, hf, lookupFS, hq, ih]
      · simp only [List.filter_cons, hf]
        simpa [lookupFS, hq] using ih

/-- An absent key stays absent after `removeKey`; more precisely
`removeKey` is the identity when the key is absent. -/
theorem removeKey_of_absent (fs : FS) (a : String)
    (h : lookupFS fs a = none) : removeKey fs a = fs := by
  induction fs with
  | nil => rfl
  | cons e rest ih =>
    simp only [lookupFS] at h
    by_cases hq : e.1 = a
    · simp [hq] at h
    · have hr : lookupFS rest a = none := by simpa [hq] using h
      simp [removeKey, List.filter_cons, hq] at ih ⊢
      exact ih hr

/-- `removeKey` removes the key. -/
theorem lookupFS_removeKey_self (fs : FS) (a : String) :
    lookupFS (removeKey fs a) a = none :=
  lookupFS_filter_of_false fs _ a (fun _ => by simp)

/-- `removeKey` leaves every other key alone. -/
theorem lookupFS_removeKey_other (fs : FS) (a q : String) (h : q ≠ a) :
    lookupFS (removeKey fs a) q = lookupFS fs q :=
  lookupFS_filter_of_true fs _ q (fun _ => by simp [h])

/-- Writing content at an absent key changes nothing. -/
theorem writeContent_of_absent (fs : FS) (a : String) (bytes : List Nat)
    (h : lookupFS fs a = none) : writeContent fs a bytes = fs := by
  induction fs with
  | nil => rfl
  | cons e rest ih =>
    simp only [lookupFS] at h
    by_cases hq : e.1 = a
    · simp [hq] at h
    · have hr : lookupFS rest a = none := by simpa [hq] using h
      simp only [writeContent, List.map_cons, if_neg hq] at ih ⊢
      rw [ih hr]

/-- Writing through a filesystem whose head is a file at the written key
updates exactly that head entry. -/
theorem writeContent_cons_self (fs : FS) (a : String) (c bytes : List Nat) (m : Nat)
    (h : lookupFS fs a = none) :
    writeContent ((a, FsEntry.file c m) :: fs) a bytes
      = (a, FsEntry.file bytes m) :: fs := by
  simp only [writeContent, List.map_cons, if_pos rfl]
  have hrest := writeContent_of_absent fs a bytes h
  simp only [writeContent] at hrest
  rw [hrest]
  simp

/-- Characterisation of a successful exclusive create: nothing was at
the path, the parent is a directory, and the result prepends the new
empty file. -/
theorem osCreateExcl_eq_some (cwd : String) (fs : FS) (p : String) (perm : Nat) (fs1 : FS)
    (h : osCreateExcl cwd fs p perm = some fs1) :
    lookupFS fs (absPath cwd p) = none
      ∧ fs1 = (absPath cwd p, FsEntry.file [] perm) :: fs := by
  unfold osCreateExcl at h
  cases hl : lookupFS fs (absPath cwd p) with
  | some en => rw [hl] at h; simp at h
  | none =>
    rw [hl] at h
    simp only [Option.isSome_none, Bool.false_eq_true, if_false] at h
    cases hp : lookupFS fs (parentDir (absPath cwd p)) with
    | none => rw [hp] at h; simp at h
    | some en =>
      rw [hp] at h
      cases en with
      | dir =>
        simp only [Option.some.injEq] at h
        exact ⟨rfl, h.symm⟩
      | file c m => simp at h

/-- An empty string has length zero and conversely. -/
theorem string_length_eq_zero (s : String) : s.length = 0 ↔ s = "" := by
  constructor
  · intro h
    cases s with
    | mk data =>
      cases data with
      | nil => rfl
      | cons c cs => simp [String.length] at h
  · intro h
    subst h
    rfl

/-- The second delete guard holds only on strings already caught by the
first: passing the first guard forces the second to pass as well. -/
theorem invalidDeletePath_of_not_rootWildcard (s : String)
    (h : rootWildcard s = false) : invalidDeletePath s = false := by
  unfold rootWildcard at h
  unfold invalidDeletePath
  simp only [Bool.or_eq_false_iff, decide_eq_false_iff_not] at h ⊢
  exact ⟨⟨⟨fun hl => h.1.1.2 ((string_length_eq_zero s).mp hl), h.1.1.1⟩, h.1.2⟩, h.2⟩

/-- A path that is absent from the filesystem is stored zero times. -/
theorem countKey_of_absent (fs : FS) (a : String)
    (h : lookupFS fs a = none) : countKey fs a = 0 := by
  induction fs with
  | nil => rfl
  | cons e rest ih =>
    simp only [lookupFS] at h
    by_cases hq : e.1 = a
    · simp [hq] at h
    · have hr : lookupFS rest a = none := by simpa [hq] using h
      simpa [countKey, List.filter_cons, hq] using ih hr

/-- Consing an entry at a path stores it once more. -/
theorem countKey_cons_self (fs : FS) (a : String) (en : FsEntry) :
    countKey ((a, en) :: fs) a = countKey fs a + 1 := by
  simp [countKey, List.filter_cons]

/-- Removing the destination right after creating and writing it (the
upload handler's cleanup of a failed copy) restores the original
filesystem. -/
theorem osRemove_after_create (cwd : String) (fs : FS) (bytes : List Nat) (m : Nat)
    (p : String) (h : lookupFS fs (absPath cwd p) = none) :
    (osRemove cwd ((absPath cwd p, FsEntry.file bytes m) :: fs) p).getD
        ((absPath cwd p, FsEntry.file bytes m) :: fs) = fs := by
  unfold osRemove
  have hl : lookupFS ((absPath cwd p, FsEntry.file bytes m) :: fs) (absPath cwd p)
      = some (FsEntry.file bytes m) := by simp [lookupFS]
  rw [hl]
  simp only [Option.getD_some]
  have hstep : removeKey ((absPath cwd p, FsEntry.file bytes m) :: fs) (absPath cwd p)
      = removeKey fs (absPath cwd p) := by
    simp [removeKey, List.filter_cons]
  rw [hstep, removeKey_of_absent fs (absPath cwd p) h]

/-- An absolute path is not the empty string. -/
theorem isAbsPath_ne_empty (p : String) (h : isAbsPath p = true) : p ≠ "" := by
  intro he
  subst he
  exact absurd h (by decide)

/-- Joining a path with a trailing empty element cleans the path
(`filepath.Join(p, "")` is `Clean(p)`). -/
theorem joinPath_empty_right (p : String) (h : p ≠ "") :
    joinPath [p, ""] = cleanPath p := by
  unfold joinPath
  have hf : [p, ""].filter (fun e => decide (e ≠ "")) = [p] := by simp [h]
  rw [hf]
  rfl

/-- An empty middle element is dropped by `filepath.Join`. -/
theorem joinPath_empty_mid (a b : String) :
    joinPath [a, "", b] = joinPath [a, b] := by
  unfold joinPath
  have hf : [a, "", b].filter (fun e => decide (e ≠ ""))
      = [a, b].filter (fun e => decide (e ≠ "")) := by
    simp [List.filter_cons]
  rw [hf]

/-- One successful iteration of the upload loop: open succeeds, the
destination is fresh, its parent exists, and the copy completes with
the declared size; the loop continues on a filesystem extended with the
new read-only file holding the copied bytes. -/
theorem processParts_step_success (cwd rootDir dirName key : String) (part : FilePart)
    (rest : List (String × FilePart)) (fs : FS) (trace : List (String × String))
    (hopen : part.openFails = false)
    (hnew : lookupFS fs (absPath cwd (joinPath [rootDir, dirName, part.filename])) = none)
    (hpar : lookupFS fs (parentDir (absPath cwd (joinPath [rootDir, dirName, part.filename])))
        = some FsEntry.dir)
    (hcopy : part.copyErr = false) (hsize : part.written = part.size) :
    processParts cwd rootDir dirName fs trace ((key, part) :: rest)
      = processParts cwd rootDir dirName
          ((absPath cwd (joinPath [rootDir, dirName, part.filename]),
              FsEntry.file (part.content.take part.written) 0o444) :: fs)
          ((key, part.filename) :: trace) rest := by
  have hcreate : osCreateExcl cwd fs (joinPath [rootDir, dirName, part.filename]) 0o444
      = some ((absPath cwd (joinPath [rootDir, dirName, part.filename]),
          FsEntry.file [] 0o444) :: fs) := by
    unfold osCreateExcl
    rw [hnew, hpar]
    simp
  simp only [processParts, hopen, Bool.false_eq_true, if_false, hnew, Option.isSome_none,
    hcreate]
  rw [writeContent_cons_self fs _ [] _ 0o444 hnew]
  simp [hcopy, hsize]

/-- One failing-copy iteration of the upload loop: open succeeds, the
destination is fresh and creatable, but the copy errors or reports a
size mismatch; the handler removes the destination it created and
aborts with 500 "Error copying file", leaving the filesystem as it
was. -/
theorem processParts_step_copyfail (cwd rootDir dirName key : String) (part : FilePart)
    (rest : List (String × FilePart)) (fs : FS) (trace : List (String × String))
    (hopen : part.openFails = false)
    (hnew : lookupFS fs (absPath cwd (joinPath [rootDir, dirName, part.filename])) = none)
    (hpar : lookupFS fs (parentDir (absPath cwd (joinPath [rootDir, dirName, part.filename])))
        = some FsEntry.dir)
    (hbad : part.copyErr = true ∨ part.written ≠ part.size) :
    processParts cwd rootDir dirName fs trace ((key, part) :: rest)
      = ⟨fs, ⟨500, "Error copying file"⟩, ((key, part.filename) :: trace).reverse⟩ := by
  have hcreate : osCreateExcl cwd fs (joinPath [rootDir, dirName, part.filename]) 0o444
      = some ((absPath cwd (joinPath [rootDir, dirName, part.filename]),
          FsEntry.file [] 0o444) :: fs) := by
    unfold osCreateExcl
    rw [hnew, hpar]
    simp
  simp only [processParts, hopen, Bool.false_eq_true, if_false, hnew, Option.isSome_none,
    hcreate]
  rw [writeContent_cons_self fs _ [] _ 0o444 hnew]
  rw [if_pos hbad]
  rw [osRemove_after_create cwd fs _ 0o444 _ hnew]

/-- Every filesystem entry after the upload loop either predates the
loop or is a file created by it with permission bits `0o444`. -/
theorem processParts_created_mode (cwd rootDir dirName : String)
    (parts : List (String × FilePart)) :
    ∀ (fs : FS) (trace : List (String × String)),
      ∀ e ∈ (processParts cwd rootDir dirName fs trace parts).fs,
        e ∈ fs ∨ ∃ c, e.2 = FsEntry.file c 0o444 := by
  induction parts with
  | nil => intro fs trace e he; exact Or.inl he
  | cons kp rest ih =>
    intro fs trace e he
    obtain ⟨key, part⟩ := kp
    by_cases ho : part.openFails = true
    · simp only [processParts, ho, if_true] at he
      exact ih fs _ e he
    · have hof : part.openFails = false := by simpa using ho
      cases hl : lookupFS fs (absPath cwd (joinPath [rootDir, dirName, part.filename])) with
      | some en =>
        simp only [processParts, hof, Bool.false_eq_true, if_false, hl, Option.isSome_some,
          if_true] at he
        exact Or.inl he
      | none =>
        cases hc : osCreateExcl cwd fs (joinPath [rootDir, dirName, part.filename]) 0o444 with
        | none =>
          simp only [processParts, hof, Bool.false_eq_true, if_false, hl, Option.isSome_none,
            hc] at he
          exact Or.inl he
        | some fs1 =>
          obtain ⟨-, hfs1⟩ := osCreateExcl_eq_some _ _ _ _ _ hc
          subst hfs1
          simp only [processParts, hof, Bool.false_eq_true, if_false, hl, Option.isSome_none,
            hc] at he
          rw [writeContent_cons_self fs _ [] _ 0o444 hl] at he
          by_cases hb : part.copyErr = true ∨ part.written ≠ part.size
          · rw [if_pos hb] at he
            rw [osRemove_after_create cwd fs _ 0o444 _ hl] at he
            exact Or.inl he
          · rw [if_neg hb] at he
            rcases ih _ _ e he with hmem | h444
            · rcases List.mem_cons.mp hmem with hhead | htail
              · exact Or.inr ⟨part.content.take part.written, by rw [hhead]⟩
              · exact Or.inl htail
            · exact Or.inr h444

/-- The parts the upload loop handles are an initial segment of the list
it was given, in that list's order, appended to the trace handled so
far. -/
theorem processParts_processed_shape (cwd rootDir dirName : String)
    (parts : List (String × FilePart)) :
    ∀ (fs : FS) (trace : List (String × String)),
      ∃ tail, (processParts cwd rootDir dirName fs trace parts).processed ++ tail
        = trace.reverse ++ parts.map (fun kp => (kp.1, kp.2.filename)) := by
  induction parts with
  | nil =>
    intro fs trace
    exact ⟨[], by simp [processParts]⟩
  | cons kp rest ih =>
    intro fs trace
    obtain ⟨key, part⟩ := kp
    by_cases ho : part.openFails = true
    · obtain ⟨tail, htail⟩ := ih fs ((key, part.filename) :: trace)
      refine ⟨tail, ?_⟩
      simp only [processParts, ho, if_true]
      rw [htail]
      simp
    · have hof : part.openFails = false := by simpa using ho
      cases hl : lookupFS fs (absPath cwd (joinPath [rootDir, dirName, part.filename])) with
      | some en =>
        refine ⟨rest.map (fun kp => (kp.1, kp.2.filename)), ?_⟩
        simp only [processParts, hof, Bool.false_eq_true, if_false, hl, Option.isSome_some,
          if_true]
        simp
      | none =>
        cases hc : osCreateExcl cwd fs (joinPath [rootDir, dirName, part.filename]) 0o444 with
        | none =>
          refine ⟨rest.map (fun kp => (kp.1, kp.2.filename)), ?_⟩
          simp only [processParts, hof, Bool.false_eq_true, if_false, hl, Option.isSome_none,
            hc]
          simp
        | some fs1 =>
          obtain ⟨-, hfs1⟩ := osCreateExcl_eq_some _ _ _ _ _ hc
          subst hfs1
          by_cases hb : part.copyErr = true ∨ part.written ≠ part.size
          · refine ⟨rest.map (fun kp => (kp.1, kp.2.filename)), ?_⟩
            rw [processParts_step_copyfail cwd rootDir dirName key part rest fs trace hof hl
              (by
                have := osCreateExcl_eq_some cwd fs
                  (joinPath [rootDir, dirName, part.filename]) 0o444 _ hc
                revert hc
                unfold osCreateExcl
                rw [hl]
                cases hp : lookupFS fs
                    (parentDir (absPath cwd (joinPath [rootDir, dirName, part.filename]))) with
                | none => intro hc2; simp at hc2
                | some en2 =>
                  cases en2 with
                  | dir => intro hc2; rfl
                  | file c m => intro hc2; simp at hc2) hb]
            simp
          · obtain ⟨tail, htail⟩ := ih _ ((key, part.filename) :: trace)
            refine ⟨tail, ?_⟩
            simp only [processParts, hof, Bool.false_eq_true, if_false, hl, Option.isSome_none,
              hc]
            rw [writeContent_cons_self fs _ [] _ 0o444 hl, if_neg hb, htail]
            simp

end Gopi

namespace Gopi

/-- Claim C7: `GET /livez` responds 500 "Cannot read directory" exactly
when enumerating the root directory's entries fails, and 200 "ok"
otherwise; `GET /readyz` responds 200 "ok" on every request. -/
theorem C7_health_probes (cwd rootDir : String) (fs : FS) :
    (livezHandler cwd rootDir fs = ⟨500, "Cannot read directory"⟩
        ↔ osReadDir cwd fs rootDir = none)
      ∧ livezHandler cwd rootDir fs
          = (if (osReadDir cwd fs rootDir).isSome = true then ⟨200, "ok"⟩
             else ⟨500, "Cannot read directory"⟩)
      ∧ readyzHandler = ⟨200, "ok"⟩ := by
  refine ⟨?_, ?_, rfl⟩ <;>
    unfold livezHandler <;>
      cases h : osReadDir cwd fs rootDir <;> simp

/-- Claim C9: the delete handler's second root/wildcard guard is
behaviourally a no-op — every path that passes the first guard fails
the second guard's condition, and the 403 "Invalid delete path"
response is unreachable. -/
theorem C9_redundant_guard :
    (∀ s : String, rootWildcard s = false → invalidDeletePath s = false)
      ∧ ∀ (cwd rootDir relPath : String) (fs : FS) (removeOk : Bool),
          (deleteHandler cwd rootDir relPath fs removeOk).2
            ≠ ⟨403, "Invalid delete path"⟩ := by
  refine ⟨invalidDeletePath_of_not_rootWildcard, ?_⟩
  intro cwd rootDir relPath fs removeOk
  unfold deleteHandler
  by_cases h1 : rootWildcard relPath = true
  · rw [if_pos h1]
    simp
  · have h1f : rootWildcard relPath = false := by simpa using h1
    rw [if_neg h1]
    by_cases h2 : absPath cwd rootDir = absPath cwd (joinPath [rootDir, relPath])
    · rw [if_pos h2]
      simp
    · rw [if_neg h2,
        if_neg (by simp [invalidDeletePath_of_not_rootWildcard relPath h1f])]
      cases hl : lookupFS fs (absPath cwd (joinPath [rootDir, relPath])) with
      | none => simp
      | some en =>
        cases en with
        | dir =>
          by_cases hr : removeOk = true <;> simp [hr]
        | file c m =>
          by_cases hr : removeOk = true
          · cases hrem : osRemove cwd fs (joinPath [rootDir, relPath]) with
            | none => simp [hr, hrem]
            | some fs2 => simp [hr, hrem]
          · simp [hr]

/-- Claim C9 witness: the second guard's condition is false at the
concrete path "/x", and the concrete delete of "/x" does not answer
"Invalid delete path". -/
theorem C9_redundant_guard_witness :
    invalidDeletePath "/x" = false
      ∧ (deleteHandler "/" "/r" "/x" [("/r", FsEntry.dir)] true).2
          ≠ ⟨403, "Invalid delete path"⟩ :=
  ⟨C9_redundant_guard.1 "/x" (by decide),
   C9_redundant_guard.2 "/" "/r" "/x" [("/r", FsEntry.dir)] true⟩

/-- Claim C1 (amended): a DELETE whose raw URL path is exactly "/",
empty, "*", or "/*" is answered 403 "Refusing to delete root or
wildcard path" with the filesystem untouched, and a DELETE that passes
that guard but whose joined target resolves to the same absolute path
as the root directory is answered 403 "Refusing to delete root
directory" with the filesystem untouched; so a DELETE whose target
resolves to the root never removes anything.  (The original claim's
further conclusion that no DELETE request ever removes the root
directory is refuted by `C1_root_removed_counterexample`: a target
resolving to a strict ancestor of the root passes both guards and the
recursive removal deletes the root directory with it.) -/
theorem C1_delete_guards :
    (∀ (cwd rootDir relPath : String) (fs : FS) (removeOk : Bool),
        relPath = "/" ∨ relPath = "" ∨ relPath = "*" ∨ relPath = "/*" →
        deleteHandler cwd rootDir relPath fs removeOk
          = (fs, ⟨403, "Refusing to delete root or wildcard path"⟩))
      ∧ ∀ (cwd rootDir relPath : String) (fs : FS) (removeOk : Bool),
          rootWildcard relPath = false →
          absPath cwd rootDir = absPath cwd (joinPath [rootDir, relPath]) →
          deleteHandler cwd rootDir relPath fs removeOk
            = (fs, ⟨403, "Refusing to delete root directory"⟩) := by
  constructor
  · intro cwd rootDir relPath fs removeOk h
    have hw : rootWildcard relPath = true := by
      rcases h with h | h | h | h <;> simp [rootWildcard, h]
    unfold deleteHandler
    rw [if_pos hw]
  · intro cwd rootDir relPath fs removeOk h1 h2
    unfold deleteHandler
    rw [if_neg (by simp [h1]), if_pos h2]

/-- Claim C1 witness: the guards fire on the concrete wildcard path "/"
and on the concrete path "/x/.." that resolves back to the root
directory "/r". -/
theorem C1_delete_guards_witness :
    deleteHandler "/" "/r" "/" [("/r", FsEntry.dir)] true
        = ([("/r", FsEntry.dir)], ⟨403, "Refusing to delete root or wildcard path"⟩)
      ∧ deleteHandler "/" "/r" "/x/.." [("/r", FsEntry.dir)] true
          = ([("/r", FsEntry.dir)], ⟨403, "Refusing to delete root directory"⟩) :=
  ⟨C1_delete_guards.1 "/" "/r" "/" [("/r", FsEntry.dir)] true (Or.inl rfl),
   C1_delete_guards.2 "/" "/r" "/x/.." [("/r", FsEntry.dir)] true (by decide) (by decide)⟩

/-- Claim C1 counterexample: with root directory "/a/b" and working
directory "/", the DELETE path "/.." passes both guards (it is not a
wildcard and resolves to "/a", not "/a/b"), and the recursive removal
of "/a" deletes the root directory "/a/b" itself — refuting the
claim's conclusion that no DELETE request ever removes the root
directory. -/
theorem C1_root_removed_counterexample :
    lookupFS [("/a", FsEntry.dir), ("/a/b", FsEntry.dir)] "/a/b" = some FsEntry.dir
      ∧ deleteHandler "/" "/a/b" "/.." [("/a", FsEntry.dir), ("/a/b", FsEntry.dir)] true
          = ([], ⟨200, "Deleted"⟩) := by
  decide

/-- Claim C4: no handler confines the resolved path to the root
directory's subtree.  Concretely, with root "/srv/root": a DELETE of
"/../gone" resolves outside the subtree and removes "/srv/gone"; a GET
of "/../leak" resolves outside the subtree and serves "/srv/leak"; an
upload with directory field "../out" writes "/srv/out/x.txt" outside
the subtree; and while the delete handler rejects a target equal to the
root, the browse handler happily lists the root for the equivalent
traversal path, showing only the delete handler performs the
equal-to-root check. -/
theorem C4_path_containment_gap :
    (withinSubtree "/srv/root" (absPath "/" (joinPath ["/srv/root", "/../gone"])) = false
      ∧ deleteHandler "/" "/srv/root" "/../gone"
          [("/srv", FsEntry.dir), ("/srv/root", FsEntry.dir), ("/srv/gone", FsEntry.file [7] 292)]
          true
        = ([("/srv", FsEntry.dir), ("/srv/root", FsEntry.dir)], ⟨200, "Deleted"⟩))
    ∧ (withinSubtree "/srv/root" (absPath "/" (joinPath ["/srv/root", "/../leak"])) = false
      ∧ getHandler "/" "/srv/root" "/../leak"
          [("/srv", FsEntry.dir), ("/srv/root", FsEntry.dir), ("/srv/leak", FsEntry.file [9] 292)]
        = GetOutcome.serveFile [9])
    ∧ (withinSubtree "/srv/root" "/srv/out/x.txt" = false
      ∧ (uploadHandler "/" "/srv/root" true [("name", ["../out"])]
          [("f", [⟨"x.txt", [5], 1, false, false, 1⟩])]
          [("/srv", FsEntry.dir), ("/srv/root", FsEntry.dir)]).resp
        = ⟨200, "Form data received and printed"⟩
      ∧ lookupFS (uploadHandler "/" "/srv/root" true [("name", ["../out"])]
          [("f", [⟨"x.txt", [5], 1, false, false, 1⟩])]
          [("/srv", FsEntry.dir), ("/srv/root", FsEntry.dir)]).fs "/srv/out/x.txt"
        = some (FsEntry.file [5] 0o444))
    ∧ (deleteHandler "/" "/srv/root" "/x/.." [("/srv", FsEntry.dir), ("/srv/root", FsEntry.dir)]
          true
        = ([("/srv", FsEntry.dir), ("/srv/root", FsEntry.dir)],
            ⟨403, "Refusing to delete root directory"⟩)
      ∧ getHandler "/" "/srv/root" "/x/.." [("/srv", FsEntry.dir), ("/srv/root", FsEntry.dir)]
        = GetOutcome.listing "/srv/root" []) := by
  decide

/-- Claim C2: when an uploaded part reaches the copy step (its open
succeeded, nothing sat at the destination, and the exclusive create
went through) and the copy errors or writes a number of bytes different
from the declared size, the handler removes the destination file it
created, answers 500 "Error copying file", and aborts the request at
that part — the filesystem is exactly what it was before the part was
handled, so no destination file is left at that path. -/
theorem C2_copy_failure_cleanup (cwd rootDir dirName key : String) (part : FilePart)
    (rest : List (String × FilePart)) (fs : FS) (trace : List (String × String))
    (hopen : part.openFails = false)
    (hnew : lookupFS fs (absPath cwd (joinPath [rootDir, dirName, part.filename])) = none)
    (hpar : lookupFS fs (parentDir (absPath cwd (joinPath [rootDir, dirName, part.filename])))
        = some FsEntry.dir)
    (hbad : part.copyErr = true ∨ part.written ≠ part.size) :
    processParts cwd rootDir dirName fs trace ((key, part) :: rest)
        = ⟨fs, ⟨500, "Error copying file"⟩, ((key, part.filename) :: trace).reverse⟩
      ∧ lookupFS (processParts cwd rootDir dirName fs trace ((key, part) :: rest)).fs
          (absPath cwd (joinPath [rootDir, dirName, part.filename])) = none := by
  have h := processParts_step_copyfail cwd rootDir dirName key part rest fs trace
    hopen hnew hpar hbad
  exact ⟨h, by rw [h]; exact hnew⟩

/-- Claim C2 witness: a part declared as 2 bytes whose copy writes only
1 byte is cleaned up and answered with 500 "Error copying file". -/
theorem C2_copy_failure_cleanup_witness :
    processParts "/" "/r" "d" [("/r", FsEntry.dir), ("/r/d", FsEntry.dir)] []
        [("f", ⟨"x", [1, 2], 2, false, false, 1⟩)]
      = ⟨[("/r", FsEntry.dir), ("/r/d", FsEntry.dir)], ⟨500, "Error copying file"⟩,
          [("f", "x")]⟩ :=
  (C2_copy_failure_cleanup "/" "/r" "d" "f" ⟨"x", [1, 2], 2, false, false, 1⟩ [] _ []
    rfl (by decide) (by decide) (Or.inr (by decide))).1

/-- Claim C3: an uploaded part whose destination path is already
occupied makes the handler answer 409 "File already exists" and abort
the request at that part with the filesystem untouched; and two parts
of one request carrying the same filename yield exactly one stored
file, holding the first part's bytes, with the request answered 409. -/
theorem C3_existing_file_conflict :
    (∀ (cwd rootDir dirName key : String) (part : FilePart)
        (rest : List (String × FilePart)) (fs : FS) (trace : List (String × String)),
        part.openFails = false →
        (lookupFS fs (absPath cwd (joinPath [rootDir, dirName, part.filename]))).isSome
            = true →
        processParts cwd rootDir dirName fs trace ((key, part) :: rest)
          = ⟨fs, ⟨409, "File already exists"⟩, ((key, part.filename) :: trace).reverse⟩)
      ∧ ∀ (cwd rootDir dirName k1 k2 : String) (p1 p2 : FilePart) (fs : FS),
          p1.openFails = false → p1.copyErr = false → p1.written = p1.size →
          p2.openFails = false → p2.filename = p1.filename →
          lookupFS fs (absPath cwd (joinPath [rootDir, dirName, p1.filename])) = none →
          lookupFS fs (parentDir (absPath cwd (joinPath [rootDir, dirName, p1.filename])))
              = some FsEntry.dir →
          (processParts cwd rootDir dirName fs [] [(k1, p1), (k2, p2)]).resp
              = ⟨409, "File already exists"⟩
            ∧ lookupFS (processParts cwd rootDir dirName fs [] [(k1, p1), (k2, p2)]).fs
                (absPath cwd (joinPath [rootDir, dirName, p1.filename]))
              = some (FsEntry.file (p1.content.take p1.written) 0o444)
            ∧ countKey (processParts cwd rootDir dirName fs [] [(k1, p1), (k2, p2)]).fs
                (absPath cwd (joinPath [rootDir, dirName, p1.filename])) = 1 := by
  constructor
  · intro cwd rootDir dirName key part rest fs trace hopen hexists
    cases hl : lookupFS fs (absPath cwd (joinPath [rootDir, dirName, part.filename])) with
    | none => rw [hl] at hexists; simp at hexists
    | some en =>
      simp only [processParts, hopen, Bool.false_eq_true, if_false, hl, Option.isSome_some,
        if_true]
  · intro cwd rootDir dirName k1 k2 p1 p2 fs h1o h1c h1w h2o hfn hnew hpar
    rw [processParts_step_success cwd rootDir dirName k1 p1 [(k2, p2)] fs [] h1o hnew hpar
      h1c h1w]
    have hl2 : lookupFS
        ((absPath cwd (joinPath [rootDir, dirName, p1.filename]),
            FsEntry.file (p1.content.take p1.written) 0o444) :: fs)
        (absPath cwd (joinPath [rootDir, dirName, p2.filename]))
        = some (FsEntry.file (p1.content.take p1.written) 0o444) := by
      rw [hfn]
      simp [lookupFS]
    simp only [processParts, h2o, Bool.false_eq_true, if_false, hl2, Option.isSome_some,
      if_true]
    refine ⟨by trivial, ?_, ?_⟩
    · simp [lookupFS]
    · rw [countKey_cons_self, countKey_of_absent fs _ hnew]

/-- Claim C3 witness: a part colliding with an existing file gets 409
with nothing changed, and two same-named parts in one request leave
exactly one stored file with the first part's bytes. -/
theorem C3_existing_file_conflict_witness :
    processParts "/" "/r" "d" [("/r/d/x", FsEntry.file [9] 292), ("/r/d", FsEntry.dir)] []
        [("f", ⟨"x", [1], 1, false, false, 1⟩)]
      = ⟨[("/r/d/x", FsEntry.file [9] 292), ("/r/d", FsEntry.dir)],
          ⟨409, "File already exists"⟩, [("f", "x")]⟩
    ∧ countKey (processParts "/" "/r" "d" [("/r/d", FsEntry.dir)] []
        [("a", ⟨"x", [1], 1, false, false, 1⟩), ("b", ⟨"x", [2], 1, false, false, 1⟩)]).fs
        "/r/d/x" = 1 := by
  constructor
  · exact C3_existing_file_conflict.1 "/" "/r" "d" "f" ⟨"x", [1], 1, false, false, 1⟩ [] _ []
      rfl (by decide)
  · have h := (C3_existing_file_conflict.2 "/" "/r" "d" "a" "b"
      ⟨"x", [1], 1, false, false, 1⟩ ⟨"x", [2], 1, false, false, 1⟩ [("/r/d", FsEntry.dir)]
      rfl rfl rfl rfl rfl (by decide) (by decide)).2.2
    simpa using h

/-- Claim C5: the upload handler creates destinations with exclusive
create (the create fails whenever anything already sits at the path)
and permission `0o444` — every entry the upload loop adds is a file
with mode `0o444`, whose three octal digits each grant read only and
neither write nor execute; and a failing create is answered 500
"Unable to create file", aborting the request at that part. -/
theorem C5_exclusive_create :
    (∀ (cwd : String) (fs : FS) (p : String) (perm : Nat),
        (lookupFS fs (absPath cwd p)).isSome = true → osCreateExcl cwd fs p perm = none)
      ∧ (∀ (cwd rootDir dirName : String) (parts : List (String × FilePart)) (fs : FS)
          (trace : List (String × String)),
          ∀ e ∈ (processParts cwd rootDir dirName fs trace parts).fs,
            e ∈ fs ∨ ∃ c, e.2 = FsEntry.file c 0o444)
      ∧ (0o444 % 8 = 4 ∧ 0o444 / 8 % 8 = 4 ∧ 0o444 / 64 % 8 = 4)
      ∧ ∀ (cwd rootDir dirName key : String) (part : FilePart)
          (rest : List (String × FilePart)) (fs : FS) (trace : List (String × String)),
          part.openFails = false →
          lookupFS fs (absPath cwd (joinPath [rootDir, dirName, part.filename])) = none →
          osCreateExcl cwd fs (joinPath [rootDir, dirName, part.filename]) 0o444 = none →
          processParts cwd rootDir dirName fs trace ((key, part) :: rest)
            = ⟨fs, ⟨500, "Unable to create file"⟩, ((key, part.filename) :: trace).reverse⟩ := by
  refine ⟨?_, ?_, by decide, ?_⟩
  · intro cwd fs p perm h
    unfold osCreateExcl
    rw [if_pos h]
  · intro cwd rootDir dirName parts fs trace
    exact processParts_created_mode cwd rootDir dirName parts fs trace
  · intro cwd rootDir dirName key part rest fs trace hopen hnew hfail
    simp only [processParts, hopen, Bool.false_eq_true, if_false, hnew, Option.isSome_none,
      hfail]

/-- Claim C5 witness: creating over an existing path fails, and a part
whose filename escapes into a missing subdirectory makes the create
fail and the request abort with 500 "Unable to create file". -/
theorem C5_exclusive_create_witness :
    osCreateExcl "/" [("/r/d/x", FsEntry.file [9] 292)] "/r/d/x" 0o444 = none
      ∧ processParts "/" "/r" "d" [("/r/d", FsEntry.dir)] []
          [("f", ⟨"sub/x", [1], 1, false, false, 1⟩)]
        = ⟨[("/r/d", FsEntry.dir)], ⟨500, "Unable to create file"⟩, [("f", "sub/x")]⟩ :=
  ⟨C5_exclusive_create.1 "/" [("/r/d/x", FsEntry.file [9] 292)] "/r/d/x" 0o444 (by decide),
   C5_exclusive_create.2.2.2 "/" "/r" "d" "f" ⟨"sub/x", [1], 1, false, false, 1⟩ [] _ []
     rfl (by decide) (by decide)⟩

/-- Claim C6: a DELETE that passes the root and wildcard guards is
answered 404 "File or directory not found" with nothing mutated when
the stat of the resolved path fails; removes, on success, a directory
together with everything below it and nothing else; removes exactly the
named file when the target is a file; is answered 500 "Unable to
delete" with nothing mutated when the removal fails; and answers 200
"Deleted" on success. -/
theorem C6_delete_operation (cwd rootDir relPath : String) (fs : FS)
    (g1 : rootWildcard relPath = false)
    (g2 : absPath cwd rootDir ≠ absPath cwd (joinPath [rootDir, relPath])) :
    (lookupFS fs (absPath cwd (joinPath [rootDir, relPath])) = none →
        ∀ removeOk, deleteHandler cwd rootDir relPath fs removeOk
          = (fs, ⟨404, "File or directory not found"⟩))
      ∧ (lookupFS fs (absPath cwd (joinPath [rootDir, relPath])) = some FsEntry.dir →
          (deleteHandler cwd rootDir relPath fs true).2 = ⟨200, "Deleted"⟩
            ∧ (∀ q, underOrEq (absPath cwd (joinPath [rootDir, relPath])) q = true →
                lookupFS (deleteHandler cwd rootDir relPath fs true).1 q = none)
            ∧ (∀ q, underOrEq (absPath cwd (joinPath [rootDir, relPath])) q = false →
                lookupFS (deleteHandler cwd rootDir relPath fs true).1 q = lookupFS fs q))
      ∧ (∀ c m,
          lookupFS fs (absPath cwd (joinPath [rootDir, relPath]))
              = some (FsEntry.file c m) →
          (deleteHandler cwd rootDir relPath fs true).2 = ⟨200, "Deleted"⟩
            ∧ lookupFS (deleteHandler cwd rootDir relPath fs true).1
                (absPath cwd (joinPath [rootDir, relPath])) = none
            ∧ (∀ q, q ≠ absPath cwd (joinPath [rootDir, relPath]) →
                lookupFS (deleteHandler cwd rootDir relPath fs true).1 q = lookupFS fs q))
      ∧ ((lookupFS fs (absPath cwd (joinPath [rootDir, relPath]))).isSome = true →
          deleteHandler cwd rootDir relPath fs false
            = (fs, ⟨500, "Unable to delete"⟩)) := by
  have hg3 : invalidDeletePath relPath = false :=
    invalidDeletePath_of_not_rootWildcard relPath g1
  refine ⟨?_, ?_, ?_, ?_⟩
  · intro hl removeOk
    unfold deleteHandler
    rw [if_neg (by simp [g1]), if_neg g2, if_neg (by simp [hg3]), hl]
  · intro hl
    unfold deleteHandler
    rw [if_neg (by simp [g1]), if_neg g2, if_neg (by simp [hg3]), hl]
    refine ⟨rfl, ?_, ?_⟩
    · intro q hq
      exact lookupFS_filter_of_false fs _ q (fun en => by simp [hq])
    · intro q hq
      exact lookupFS_filter_of_true fs _ q (fun en => by simp [hq])
  · intro c m hl
    unfold deleteHandler
    rw [if_neg (by simp [g1]), if_neg g2, if_neg (by simp [hg3]), hl]
    have hrem : osRemove cwd fs (joinPath [rootDir, relPath])
        = some (removeKey fs (absPath cwd (joinPath [rootDir, relPath]))) := by
      unfold osRemove
      rw [hl]
    rw [hrem]
    exact ⟨rfl, lookupFS_removeKey_self fs _,
      fun q hq => lookupFS_removeKey_other fs _ q hq⟩
  · intro hl
    unfold deleteHandler
    rw [if_neg (by simp [g1]), if_neg g2, if_neg (by simp [hg3])]
    cases hlv : lookupFS fs (absPath cwd (joinPath [rootDir, relPath])) with
    | none => rw [hlv] at hl; simp at hl
    | some en => cases en <;> simp

/-- Claim C6 witness: deleting a missing path answers 404 with nothing
removed, and deleting an existing file removes exactly it with 200
"Deleted". -/
theorem C6_delete_operation_witness :
    deleteHandler "/" "/r" "/nope" [("/r", FsEntry.dir)] true
        = ([("/r", FsEntry.dir)], ⟨404, "File or directory not found"⟩)
      ∧ (deleteHandler "/" "/r" "/f" [("/r", FsEntry.dir), ("/r/f", FsEntry.file [1] 292)]
            true).2 = ⟨200, "Deleted"⟩
      ∧ lookupFS (deleteHandler "/" "/r" "/f"
            [("/r", FsEntry.dir), ("/r/f", FsEntry.file [1] 292)] true).1 "/r/f" = none :=
  ⟨(C6_delete_operation "/" "/r" "/nope" [("/r", FsEntry.dir)] (by decide) (by decide)).1
      (by decide) true,
   ((C6_delete_operation "/" "/r" "/f" [("/r", FsEntry.dir), ("/r/f", FsEntry.file [1] 292)]
      (by decide) (by decide)).2.2.1 [1] 292 (by decide)).1,
   by
    have h := ((C6_delete_operation "/" "/r" "/f"
      [("/r", FsEntry.dir), ("/r/f", FsEntry.file [1] 292)] (by decide) (by decide)).2.2.1
      [1] 292 (by decide)).2.1
    simpa using h⟩

/-- Claim C8 counterexample: the upload handler iterates
`r.MultipartForm.File` with a Go map `range`, whose order is
unspecified, so the processing order is not a function of the form.
The two file maps below are the same map (a permutation of the same
key/part associations) presented in two `range` orders; the handler
processes the parts in different orders and even stores different
bytes at the common destination, refuting the claim that two runs on
the same form process the parts in the same order. -/
theorem C8_map_order_counterexample :
    List.Perm
        [("a", [(⟨"f", [1], 1, false, false, 1⟩ : FilePart)]),
          ("b", [⟨"f", [2], 1, false, false, 1⟩])]
        [("b", [(⟨"f", [2], 1, false, false, 1⟩ : FilePart)]),
          ("a", [⟨"f", [1], 1, false, false, 1⟩])]
      ∧ (uploadHandler "/" "/d" true [("name", [""])]
            [("a", [⟨"f", [1], 1, false, false, 1⟩]), ("b", [⟨"f", [2], 1, false, false, 1⟩])]
            [("/d", FsEntry.dir)]).processed
          ≠ (uploadHandler "/" "/d" true [("name", [""])]
            [("b", [⟨"f", [2], 1, false, false, 1⟩]), ("a", [⟨"f", [1], 1, false, false, 1⟩])]
            [("/d", FsEntry.dir)]).processed
      ∧ lookupFS (uploadHandler "/" "/d" true [("name", [""])]
            [("a", [⟨"f", [1], 1, false, false, 1⟩]), ("b", [⟨"f", [2], 1, false, false, 1⟩])]
            [("/d", FsEntry.dir)]).fs "/d/f" = some (FsEntry.file [1] 0o444)
      ∧ lookupFS (uploadHandler "/" "/d" true [("name", [""])]
            [("b", [⟨"f", [2], 1, false, false, 1⟩]), ("a", [⟨"f", [1], 1, false, false, 1⟩])]
            [("/d", FsEntry.dir)]).fs "/d/f" = some (FsEntry.file [2] 0o444) :=
  ⟨List.Perm.swap _ _ _, by decide, by decide, by decide⟩

/-- Claim C8 (amended): the upload handler processes the uploaded parts
in the order the map `range` yields the fields — an order Go leaves
unspecified, not a function of the form — and, within a field, in list
order: whatever prefix of the flattened field/part sequence the request
reaches is processed exactly in that sequence's order. -/
theorem C8_iteration_order (cwd rootDir : String) (parseOk : Bool)
    (values : List (String × List String)) (files : List (String × List FilePart))
    (fs : FS) :
    ∃ tail, (uploadHandler cwd rootDir parseOk values files fs).processed ++ tail
      = (flattenFiles files).map (fun kp => (kp.1, kp.2.filename)) := by
  unfold uploadHandler
  by_cases hp : parseOk = false
  · rw [if_pos hp]
    exact ⟨(flattenFiles files).map (fun kp => (kp.1, kp.2.filename)), by simp⟩
  · rw [if_neg hp]
    cases hv : lookupVals values "name" with
    | none => exact ⟨(flattenFiles files).map (fun kp => (kp.1, kp.2.filename)), by simp⟩
    | some names =>
      cases names with
      | nil => exact ⟨(flattenFiles files).map (fun kp => (kp.1, kp.2.filename)), by simp⟩
      | cons dirName more =>
        dsimp only
        cases hm : osMkdir cwd fs (joinPath [rootDir, dirName]) with
        | ok fs1 =>
          have h := processParts_processed_shape cwd rootDir dirName
            (flattenFiles files) fs1 []
          simpa using h
        | alreadyExists =>
          have h := processParts_processed_shape cwd rootDir dirName
            (flattenFiles files) fs []
          simpa using h
        | failed =>
          exact ⟨(flattenFiles files).map (fun kp => (kp.1, kp.2.filename)), by simp⟩

/-- Claim C10: a POST whose `name` field carries a single empty-string
value is not answered 400 "Directory name not provided" — the empty
name passes the presence check, the directory create targets the root
directory itself and is absorbed by the already-exists branch, and the
uploaded part is stored at root-directory / filename, directly under
the root, with nothing else changed. -/
theorem C10_empty_name (cwd rootDir key : String) (values : List (String × List String))
    (part : FilePart) (fs : FS)
    (habs : isAbsPath rootDir = true)
    (hcanon : cleanPath rootDir = rootDir)
    (hname : lookupVals values "name" = some [""])
    (hroot : lookupFS fs rootDir = some FsEntry.dir)
    (hopen : part.openFails = false) (hcopy : part.copyErr = false)
    (hsize : part.written = part.size)
    (hnew : lookupFS fs (absPath cwd (joinPath [rootDir, part.filename])) = none)
    (hpar : lookupFS fs (parentDir (absPath cwd (joinPath [rootDir, part.filename])))
        = some FsEntry.dir) :
    uploadHandler cwd rootDir true values [(key, [part])] fs
      = ⟨(absPath cwd (joinPath [rootDir, part.filename]),
            FsEntry.file (part.content.take part.written) 0o444) :: fs,
          ⟨200, "Form data received and printed"⟩, [(key, part.filename)]⟩ := by
  have hne := isAbsPath_ne_empty rootDir habs
  have hjr : joinPath [rootDir, ""] = rootDir := by
    rw [joinPath_empty_right rootDir hne, hcanon]
  have habs2 : absPath cwd rootDir = rootDir := by
    unfold absPath
    rw [if_pos habs, hcanon]
  have hmk : osMkdir cwd fs (joinPath [rootDir, ""]) = MkdirResult.alreadyExists := by
    unfold osMkdir
    rw [hjr, habs2, hroot]
    simp
  have hpath : joinPath [rootDir, "", part.filename] = joinPath [rootDir, part.filename] :=
    joinPath_empty_mid rootDir part.filename
  unfold uploadHandler
  rw [if_neg (by simp), hname]
  dsimp only
  rw [hmk]
  have hflat : flattenFiles [(key, [part])] = [(key, part)] := by
    simp [flattenFiles]
  rw [hflat]
  rw [processParts_step_success cwd rootDir "" key part [] fs [] hopen
    (by rw [hpath]; exact hnew) (by rw [hpath]; exact hpar) hcopy hsize]
  rw [hpath]
  simp [processParts]

/-- Claim C10 witness: a POST with `name` equal to the empty string and
one part "f.txt" answers 200 and stores "/data/f.txt" directly under
the root "/data". -/
theorem C10_empty_name_witness :
    uploadHandler "/" "/data" true [("name", [""])]
        [("up", [⟨"f.txt", [3, 4], 2, false, false, 2⟩])] [("/data", FsEntry.dir)]
      = ⟨[("/data/f.txt", FsEntry.file [3, 4] 0o444), ("/data", FsEntry.dir)],
          ⟨200, "Form data received and printed"⟩, [("up", "f.txt")]⟩ := by
  have h := C10_empty_name "/" "/data" "up" [("name", [""])]
    ⟨"f.txt", [3, 4], 2, false, false, 2⟩ [("/data", FsEntry.dir)]
    (by decide) (by decide) (by decide) (by decide) rfl rfl rfl (by decide) (by decide)
  simpa using h

end Gopi

namespace Gopi

-- Sanity checks of the path model against Go's documented behaviour.
example : cleanPath "/a/b//../c" = "/a/c" := by decide
example : cleanPath "" = "." := by decide
example : cleanPath "/../a" = "/a" := by decide
example : cleanPath "../a" = "../a" := by decide
example : joinPath ["/a/b", "/.."] = "/a" := by decide
example : joinPath ["a", "", "b"] = "a/b" := by decide
example : joinPath ["", ""] = "" := by decide
example : absPath "/w" "x/y" = "/w/x/y" := by decide
example : parentDir "/a/b" = "/a" := by decide
example : parentDir "/" = "/" := by decide
example : strictlyUnder "/a" "/a/b" = true := by decide
example : strictlyUnder "/a" "/ab" = false := by decide
example : strictlyUnder "/" "/a" = true := by decide
example : strictlyUnder "/" "/" = false := by decide
example :
    osRemoveAll "/" [("/", FsEntry.dir), ("/a", FsEntry.dir), ("/a/f", FsEntry.file [1] 292)] "/"
      = [] := by decide
example :
    deleteHandler "/" "/a" "/.."
      [("/", FsEntry.dir), ("/a", FsEntry.dir), ("/a/f", FsEntry.file [1] 292)] true
      = ([], ⟨200, "Deleted"⟩) := by decide

end Gopi
